import Mathlib

set_option maxHeartbeats 1000000

/-! Shallow embedding of `src/agent.js`: JavaScript values, the message
sanitizer, the agent loop, the three tools, and the provider adapters. -/

/-- JavaScript values as they occur in the agent's data flow: `undefined`,
`null`, booleans, numbers (the embedding restricts JS numbers to integers),
strings, arrays, and objects as ordered field lists (insertion order). -/
inductive JVal where
  | undefined : JVal
  | null : JVal
  | bool (b : Bool) : JVal
  | num (n : Int) : JVal
  | str (s : String) : JVal
  | arr (xs : List JVal) : JVal
  | obj (fs : List (String × JVal)) : JVal

/-- JS strict equality `v === 'lit'` against a string literal. -/
def isStr (v : JVal) (s : String) : Bool :=
  match v with
  | .str t => t = s
  | _ => false

/-- JS truthiness: `undefined`, `null`, `false`, `0` and `""` are falsy. -/
def truthy : JVal → Bool
  | .undefined => false
  | .null => false
  | .bool b => b
  | .num n => n != 0
  | .str s => s ≠ ""
  | .arr _ => true
  | .obj _ => true

/-- Property lookup in an ordered field list (first match wins). -/
def getFieldL : List (String × JVal) → String → JVal
  | [], _ => .undefined
  | (k', v) :: fs, k => if k' = k then v else getFieldL fs k

/-- JS property access `v.k`: `undefined` on non-objects or missing keys
(optional chaining `v?.k` behaves the same on the values that occur here). -/
def getField (v : JVal) (k : String) : JVal :=
  match v with
  | .obj fs => getFieldL fs k
  | _ => .undefined

/-- Whether an object value carries the key at all (a present key whose value
is `undefined` still counts as present, as in JS). -/
def hasField (v : JVal) (k : String) : Bool :=
  match v with
  | .obj fs => fs.any (fun f => f.1 = k)
  | _ => false

/-- JS `a || b`. -/
def jsOr (a b : JVal) : JVal := if truthy a then a else b

/-- JS nullish coalescing `a ?? b`. -/
def nullish (a b : JVal) : JVal :=
  match a with
  | .undefined => b
  | .null => b
  | v => v

/-- Whether an array element prints as empty in `Array.prototype.toString`
(JS joins `null`/`undefined` elements as the empty string). -/
def jsElemEmpty : JVal → Bool
  | .undefined => true
  | .null => true
  | _ => false

mutual

/-- JS `String(v)` / `v.toString()` on the values the agent handles:
strings pass through, numbers and booleans print, `null`/`undefined`
print their names, arrays join their elements with commas, and plain
objects print as `[object Object]`. -/
def jsToString : JVal → String
  | .undefined => "undefined"
  | .null => "null"
  | .bool b => if b then "true" else "false"
  | .num n => toString n
  | .str s => s
  | .arr xs => jsJoin xs
  | .obj _ => "[object Object]"

/-- Model of `Array.prototype.join(',')` with JS's empty rendering of null-ish
elements, as used by `Array.prototype.toString`. -/
def jsJoin : List JVal → String
  | [] => ""
  | [x] => if jsElemEmpty x then "" else jsToString x
  | x :: y :: xs =>
      (if jsElemEmpty x then "" else jsToString x) ++ "," ++ jsJoin (y :: xs)

end

/-- JSON string escaping for one character, as `JSON.stringify` does. -/
def jsonEscChar (c : Char) : String :=
  if c = '"' then "\\\""
  else if c = '\\' then "\\\\"
  else if c = '\n' then "\\n"
  else if c = '\r' then "\\r"
  else if c = '\t' then "\\t"
  else if c.toNat < 32 then
    "\\u00" ++ String.mk [Nat.digitChar (c.toNat / 16), Nat.digitChar (c.toNat % 16)]
  else String.mk [c]

/-- Quote a string the way `JSON.stringify` renders string values. -/
def jsonQuote (s : String) : String :=
  "\"" ++ String.join (s.data.map jsonEscChar) ++ "\""

mutual

/-- Model of `JSON.stringify(v)`: object fields render in insertion order,
fields whose value is `undefined` are omitted, `undefined` renders as
`null` where JSON requires a value. -/
def jsonStringify : JVal → String
  | .undefined => "null"
  | .null => "null"
  | .bool b => if b then "true" else "false"
  | .num n => toString n
  | .str s => jsonQuote s
  | .arr xs => "[" ++ jsonStringifyArr xs ++ "]"
  | .obj fs => "\x7b" ++ jsonStringifyObj fs ++ "\x7d"

/-- Elements of an array under `JSON.stringify`, comma separated. -/
def jsonStringifyArr : List JVal → String
  | [] => ""
  | [x] => jsonStringify x
  | x :: y :: xs => jsonStringify x ++ "," ++ jsonStringifyArr (y :: xs)

/-- Fields of an object under `JSON.stringify`; `undefined`-valued fields
are dropped. -/
def jsonStringifyObj : List (String × JVal) → String
  | [] => ""
  | (k, v) :: fs =>
      match v with
      | .undefined => jsonStringifyObj fs
      | v =>
          jsonQuote k ++ ":" ++ jsonStringify v ++
            (if (fs.filter (fun f => !(f.2 matches JVal.undefined))).isEmpty then "" else ",") ++
            jsonStringifyObj fs

end

/-- The sanitizer's `asString`: strings pass through, null-ish values
become the empty string, everything else is `JSON.stringify`-ed. -/
def asString (v : JVal) : String :=
  match v with
  | .str s => s
  | .undefined => ""
  | .null => ""
  | v => jsonStringify v

/-- JS whitespace for `String.prototype.trim` (the common characters). -/
def jsWS (c : Char) : Bool :=
  c = ' ' ∨ c = '\t' ∨ c = '\n' ∨ c = '\r'

/-- Drop trailing characters satisfying `p`. -/
def dropEndWhile (p : Char → Bool) (l : List Char) : List Char :=
  ((l.reverse).dropWhile p).reverse

/-- Model of `String.prototype.trim`: drop leading and trailing whitespace. -/
def jsTrim (s : String) : String :=
  String.mk (dropEndWhile jsWS (s.data.dropWhile jsWS))

theorem dropWhile_self_idem (p : Char → Bool) (l : List Char) :
    (l.dropWhile p).dropWhile p = l.dropWhile p := by
  induction l with
  | nil => rfl
  | cons a t ih =>
      by_cases h : p a
      · simpa [List.dropWhile, h] using ih
      · simp [List.dropWhile, h]

theorem dropWhile_split (p : Char → Bool) (xs ys : List Char) :
    (xs ++ ys).dropWhile p =
      (if xs.dropWhile p = [] then ys.dropWhile p else xs.dropWhile p ++ ys) := by
  induction xs with
  | nil => simp [List.dropWhile]
  | cons a t ih =>
      by_cases h : p a
      · simpa [List.dropWhile, h] using ih
      · simp [List.dropWhile, h]

theorem head_not_of_dropWhile (p : Char → Bool) (l : List Char) (a : Char)
    (t : List Char) (h : l.dropWhile p = a :: t) : p a = false := by
  induction l with
  | nil => simp [List.dropWhile] at h
  | cons b u ih =>
      by_cases hb : p b
      · exact ih (by simpa [List.dropWhile, hb] using h)
      · rw [List.dropWhile_cons_of_neg hb] at h
        cases h; simpa using hb

theorem dropEndWhile_idem (p : Char → Bool) (l : List Char) :
    dropEndWhile p (dropEndWhile p l) = dropEndWhile p l := by
  simp [dropEndWhile, dropWhile_self_idem]

theorem dropEndWhile_cons (p : Char → Bool) (a : Char) (t : List Char) :
    dropEndWhile p (a :: t) = [] ∨
      ∃ t', dropEndWhile p (a :: t) = a :: t' := by
  unfold dropEndWhile
  rw [show (a :: t).reverse = t.reverse ++ [a] by simp, dropWhile_split]
  by_cases h : t.reverse.dropWhile p = []
  · simp only [h, if_pos rfl]
    by_cases ha : p a
    · left; simp [List.dropWhile, ha]
    · right; exact ⟨[], by simp [List.dropWhile, ha]⟩
  · right
    simp only [h, if_neg h]
    exact ⟨(t.reverse.dropWhile p).reverse, by simp⟩

theorem jsTrimData_idem (l : List Char) :
    (dropEndWhile jsWS ((dropEndWhile jsWS (l.dropWhile jsWS)).dropWhile jsWS))
      = dropEndWhile jsWS (l.dropWhile jsWS) := by
  cases hm : l.dropWhile jsWS with
  | nil => simp [dropEndWhile, List.dropWhile]
  | cons a t =>
      have ha : jsWS a = false := head_not_of_dropWhile _ _ _ _ hm
      rcases dropEndWhile_cons jsWS a t with h0 | ⟨t', h1⟩
      · rw [h0]; simp [dropEndWhile, List.dropWhile]
      · rw [h1, List.dropWhile_cons_of_neg (by simp [ha]), ← h1, dropEndWhile_idem]

theorem jsTrim_idem (s : String) : jsTrim (jsTrim s) = jsTrim s := by
  simp only [jsTrim]
  exact congrArg String.mk (jsTrimData_idem s.data)

theorem jsTrim_empty : jsTrim "" = "" := rfl

/-- JSON insignificant whitespace. -/
def jsonWS (c : Char) : Bool :=
  c = ' ' ∨ c = '\t' ∨ c = '\n' ∨ c = '\r'

/-- Skip JSON whitespace. -/
def skipWS (l : List Char) : List Char := l.dropWhile jsonWS

/-- Hexadecimal digit value, if any. -/
def hexVal (c : Char) : Option Nat :=
  if '0' ≤ c ∧ c ≤ '9' then some (c.toNat - '0'.toNat)
  else if 'a' ≤ c ∧ c ≤ 'f' then some (c.toNat - 'a'.toNat + 10)
  else if 'A' ≤ c ∧ c ≤ 'F' then some (c.toNat - 'A'.toNat + 10)
  else none

/-- Parse the body of a JSON string literal (the opening quote already
consumed), handling the standard escapes. -/
def parseStringBody : Nat → List Char → List Char → Except String (String × List Char)
  | 0, _, _ => .error "string too deep"
  | _, [], _ => .error "unterminated string"
  | fuel + 1, c :: rest, acc =>
      if c = '"' then .ok (String.mk acc.reverse, rest)
      else if c = '\\' then
        match rest with
        | [] => .error "unterminated escape"
        | e :: rest2 =>
            if e = '"' then parseStringBody fuel rest2 ('"' :: acc)
            else if e = '\\' then parseStringBody fuel rest2 ('\\' :: acc)
            else if e = '/' then parseStringBody fuel rest2 ('/' :: acc)
            else if e = 'n' then parseStringBody fuel rest2 ('\n' :: acc)
            else if e = 't' then parseStringBody fuel rest2 ('\t' :: acc)
            else if e = 'r' then parseStringBody fuel rest2 ('\r' :: acc)
            else if e = 'b' then parseStringBody fuel rest2 ('\x08' :: acc)
            else if e = 'f' then parseStringBody fuel rest2 ('\x0c' :: acc)
            else if e = 'u' then
              match rest2 with
              | d1 :: d2 :: d3 :: d4 :: rest3 =>
                  match hexVal d1, hexVal d2, hexVal d3, hexVal d4 with
                  | some a, some b, some c', some d =>
                      parseStringBody fuel rest3
                        (Char.ofNat (((a * 16 + b) * 16 + c') * 16 + d) :: acc)
                  | _, _, _, _ => .error "bad unicode escape"
              | _ => .error "bad unicode escape"
            else .error "bad escape"
      else if c.toNat < 32 then .error "control character in string"
      else parseStringBody fuel rest (c :: acc)

/-- Parse a JSON number (the embedding restricts JSON numbers to
integers: fraction and exponent forms are not modelled). -/
def parseNumber (l : List Char) : Except String (Int × List Char) :=
  let neg : Bool := l.headD ' ' = '-'
  let l1 := if neg then l.tail else l
  let ds := l1.takeWhile Char.isDigit
  let rest := l1.dropWhile Char.isDigit
  if ds.isEmpty then .error "bad number"
  else if ds.length > 1 ∧ ds.headD '0' = '0' then .error "leading zero"
  else
    let n : Int := ds.foldl (fun a c => a * 10 + (c.toNat - 48 : Int)) 0
    .ok (if neg then -n else n, rest)

/-- Insert a key into an object under construction the way JS duplicate
keys behave: first insertion position, last value. -/
def insertField (fs : List (String × JVal)) (k : String) (v : JVal) :
    List (String × JVal) :=
  if fs.any (fun f => f.1 = k) then
    fs.map (fun f => if f.1 = k then (k, v) else f)
  else fs ++ [(k, v)]

mutual

/-- Fueled recursive-descent parser for one JSON value. -/
def parseVal : Nat → List Char → Except String (JVal × List Char)
  | 0, _ => .error "input too deep"
  | fuel + 1, l =>
      match skipWS l with
      | [] => .error "unexpected end of input"
      | c :: rest =>
          if c = '"' then
            match parseStringBody (rest.length + 1) rest [] with
            | .ok (s, r) => .ok (.str s, r)
            | .error e => .error e
          else if c = 't' then
            match rest with
            | 'r' :: 'u' :: 'e' :: r => .ok (.bool true, r)
            | _ => .error "bad literal"
          else if c = 'f' then
            match rest with
            | 'a' :: 'l' :: 's' :: 'e' :: r => .ok (.bool false, r)
            | _ => .error "bad literal"
          else if c = 'n' then
            match rest with
            | 'u' :: 'l' :: 'l' :: r => .ok (.null, r)
            | _ => .error "bad literal"
          else if c = '[' then
            match skipWS rest with
            | ']' :: r => .ok (.arr [], r)
            | _ => parseArrElems fuel rest []
          else if c = '\x7b' then
            match skipWS rest with
            | '\x7d' :: r => .ok (.obj [], r)
            | _ => parseObjElems fuel rest []
          else if c = '-' ∨ c.isDigit then
            match parseNumber (c :: rest) with
            | .ok (n, r) => .ok (.num n, r)
            | .error e => .error e
          else .error "unexpected character"

/-- Parse the elements of a non-empty JSON array after `[`. -/
def parseArrElems : Nat → List Char → List JVal → Except String (JVal × List Char)
  | 0, _, _ => .error "input too deep"
  | fuel + 1, l, acc =>
      match parseVal fuel l with
      | .error e => .error e
      | .ok (v, r) =>
          match skipWS r with
          | ']' :: r2 => .ok (.arr (acc ++ [v]), r2)
          | ',' :: r2 => parseArrElems fuel r2 (acc ++ [v])
          | _ => .error "expected comma or close bracket"

/-- Parse the fields of a non-empty JSON object after the open brace. -/
def parseObjElems : Nat → List Char → List (String × JVal) →
    Except String (JVal × List Char)
  | 0, _, _ => .error "input too deep"
  | fuel + 1, l, acc =>
      match skipWS l with
      | '"' :: r =>
          match parseStringBody (r.length + 1) r [] with
          | .error e => .error e
          | .ok (k, r2) =>
              match skipWS r2 with
              | ':' :: r3 =>
                  match parseVal fuel r3 with
                  | .error e => .error e
                  | .ok (v, r4) =>
                      match skipWS r4 with
                      | '\x7d' :: r5 => .ok (.obj (insertField acc k v), r5)
                      | ',' :: r5 => parseObjElems fuel r5 (insertField acc k v)
                      | _ => .error "expected comma or close brace"
              | _ => .error "expected colon"
      | _ => .error "expected key"

end

/-- Model of `JSON.parse(s)`: rejects on any syntax error, requires the whole
input to be consumed. -/
def jsonParse (s : String) : Except String JVal :=
  match parseVal (2 * s.length + 8) s.data with
  | .error e => .error e
  | .ok (v, rest) =>
      if (skipWS rest).isEmpty then .ok v else .error "unexpected trailing input"

/-! ## Message sanitizer (`sanitizeMessagesForOpenAI`, agent.js lines 184-222) -/

/-- The well-formed tool-call extraction used both by the sanitizer and by
the agent loop: `Array.isArray(m.tool_calls) ? m.tool_calls.filter(Boolean) : []`. -/
def wellFormedTCs (m : JVal) : List JVal :=
  match getField m "tool_calls" with
  | .arr xs => xs.filter truthy
  | _ => []

/-- Argument serialization for a sanitized tool call: kept when already a
string, otherwise `JSON.stringify(arguments || \x7b\x7d)`. -/
def sanArgs (a : JVal) : JVal :=
  match a with
  | .str s => .str s
  | a => .str (jsonStringify (jsOr a (.obj [])))

/-- One sanitized tool call: `id` copied, `type` forced to `"function"`,
the function name copied, arguments serialized to a string. -/
def sanTC (t : JVal) : JVal :=
  .obj [("id", getField t "id"),
        ("type", .str "function"),
        ("function", .obj
          [("name", getField (getField t "function") "name"),
           ("arguments", sanArgs (getField (getField t "function") "arguments"))])]

/-- The trimmed text of an assistant message carrying tool calls:
`(m.content ?? '').toString().trim()`. -/
def trimmedContent (m : JVal) : String :=
  jsTrim (jsToString (nullish (getField m "content") (.str "")))

/-- The string coercion applied to content in the non-tool-call branches:
`asString(m.content ?? '')`. -/
def contentString (m : JVal) : String :=
  asString (nullish (getField m "content") (.str ""))

/-- Sanitize a single message, mirroring the body of the `map` in
`sanitizeMessagesForOpenAI` (agent.js lines 185-221). -/
def sanitizeMsg (m : JVal) : JVal :=
  let role := getField m "role"
  if isStr role "assistant" then
    let tc := wellFormedTCs m
    if tc.isEmpty then
      .obj [("role", role), ("content", .str (contentString m))]
    else
      let c := trimmedContent m
      .obj [("role", role),
            ("tool_calls", .arr (tc.map sanTC)),
            ("content", if c = "" then .null else .str c)]
  else if isStr role "tool" then
    .obj ([("role", role), ("tool_call_id", getField m "tool_call_id")]
      ++ (if truthy (getField m "name") then [("name", getField m "name")] else [])
      ++ [("content", .str (contentString m))])
  else
    .obj ([("role", role), ("content", .str (contentString m))]
      ++ (if truthy (getField m "name") then [("name", getField m "name")] else []))

/-- The sanitizer `sanitizeMessagesForOpenAI`: sanitize every message of the transcript. -/
def sanitizeMessagesForOpenAI (messages : List JVal) : List JVal :=
  messages.map sanitizeMsg

/-! ## Agent loop (`agentLoop`, agent.js lines 225-277) -/

/-- Outcome of one `callLLM` round trip as the loop observes it: a parsed
JSON reply, a silent `null` (e.g. the AI Pipe login redirect), or a failure
that `callLLM` already surfaced as a danger alert before returning `null`. -/
inductive LLMRes where
  | ok (resp : JVal) : LLMRes
  | silent : LLMRes
  | failed (msg : String) : LLMRes

/-- A provider behaviour: what `callLLM` yields for a given transcript. -/
def LLMBehaviour := List JVal → LLMRes

/-- A tool executor as the loop sees it after the `.catch` at the call
site: a total function from tool name and parsed arguments to the result
value (agent.js line 260). -/
def ToolExec := JVal → JVal → JVal

/-- Model of `getAssistantMessage(data)`: the first choice's message, `null` when
there are no choices (agent.js line 432). -/
def getAssistantMessage (data : JVal) : JVal :=
  match getField data "choices" with
  | .arr (c :: _) => getField c "message"
  | _ => .null

/-- Argument parsing for one tool call (agent.js lines 252-258): a string
is `JSON.parse`d with malformed input falling back to the initial `\x7b\x7d`;
a non-string is taken as-is with a falsy fallback to `\x7b\x7d`. -/
def parseArgs (a : JVal) : JVal :=
  match a with
  | .str s =>
      match jsonParse s with
      | .ok v => v
      | .error _ => .obj []
  | v => jsOr v (.obj [])

/-- The tool-role message the loop pushes for one tool call (agent.js
lines 252-268): arguments parsed, the tool executed through the caught
executor, and the result `JSON.stringify`-ed into the content. -/
def toolMsg (exec : ToolExec) (tc : JVal) : JVal :=
  let name := getField (getField tc "function") "name"
  let args := parseArgs (getField (getField tc "function") "arguments")
  .obj [("role", .str "tool"),
        ("tool_call_id", jsOr (getField tc "id") .undefined),
        ("name", name),
        ("content", .str (jsonStringify (exec name args)))]

/-- The assistant message the loop pushes (agent.js lines 239-244):
content `msg?.content || ''`, and a `tool_calls` field only when the
filtered tool-call list is non-empty. -/
def loopAssistantMsg (msg : JVal) (toolCalls : List JVal) : JVal :=
  .obj ([("role", .str "assistant"),
         ("content", jsOr (getField msg "content") (.str ""))]
    ++ (if toolCalls.isEmpty then [] else [("tool_calls", .arr toolCalls)]))

/-- Observable outcome of a run of the loop: the final transcript, how many
times the `while` body executed, and the alerts surfaced. -/
structure LoopOut where
  messages : List JVal
  iters : Nat
  alerts : List String

/-- The `while (turns++ < 8)` body, fuel-indexed: call the provider, push
the assistant message, stop on zero tool calls, else execute each tool call
in order and loop (agent.js lines 230-271). -/
def agentSteps (llm : LLMBehaviour) (exec : ToolExec) :
    Nat → List JVal → LoopOut
  | 0, msgs => ⟨msgs, 0, []⟩
  | fuel + 1, msgs =>
      match llm msgs with
      | .failed e => ⟨msgs, 1, [e]⟩
      | .silent => ⟨msgs, 1, []⟩
      | .ok resp =>
          let msg := getAssistantMessage resp
          let toolCalls := wellFormedTCs msg
          let msgs1 := msgs ++ [loopAssistantMsg msg toolCalls]
          if toolCalls.isEmpty then ⟨msgs1, 1, []⟩
          else
            let msgs2 := msgs1 ++ toolCalls.map (toolMsg exec)
            let r := agentSteps llm exec fuel msgs2
            ⟨r.messages, r.iters + 1, r.alerts⟩

/-- The session state: the transcript and the re-entrancy flag
(`state` in agent.js line 20). -/
structure AgentState where
  messages : List JVal
  running : Bool

/-- Model of `agentLoop()`: a no-op while `state.running`; otherwise run up to 8
while-iterations and finish with the flag cleared (agent.js lines 225-277). -/
def agentLoop (llm : LLMBehaviour) (exec : ToolExec) (st : AgentState) :
    AgentState × Nat × List String :=
  if st.running then (st, 0, [])
  else
    let r := agentSteps llm exec 8 st.messages
    (⟨r.messages, false⟩, r.iters, r.alerts)

/-! ## Tools (`executeTool` and the three tools, agent.js lines 435-556) -/

/-- The HTTP endpoints the tools reach, with the request data the code
puts into each URL/body (URL assembly and percent-encoding folded into the
constructor). -/
inductive FetchReq where
  | googleCSE (key cx : String) (q : JVal) (num : Int) : FetchReq
  | ddg (q : JVal) : FetchReq
  | wikiSummary (titleGuess : String) : FetchReq
  | aipipeChat (key : String) (model : JVal) (prompt : JVal) (maxTok : Int) : FetchReq

/-- An HTTP response as the tools consume it: the `ok` flag and status
line, the outcome of `res.json()` (which itself can reject), and the raw
body text for `res.text()`. -/
structure FetchResp where
  ok : Bool
  status : Int
  statusText : String
  jsonResult : Except String JVal
  textBody : String

/-- A network behaviour: for every request, either a rejected fetch
(`Except.error`, the rejection message) or a response. -/
def FetchBehaviour := FetchReq → Except String FetchResp

/-- The sandboxed worker's observable outcome for a given code string:
captured logs plus either a result value or an error string. -/
structure SandboxOut where
  logs : List String
  failed : Bool
  result : JVal
  errText : String

/-- A sandbox behaviour for `toolJsExec`. -/
def SandboxBehaviour := String → SandboxOut

/-- The environment a tool run depends on: the network, the sandbox, and
the optional AI Pipe profile token the dynamic import can discover. -/
structure ToolEnv where
  fetch : FetchBehaviour
  sandbox : SandboxBehaviour
  profileToken : Option String

/-- The settings the tools read (`getSettings`, agent.js lines 69-78),
already trimmed as the getters trim them. -/
structure Settings where
  provider : String
  apiKey : String
  googleKey : String
  googleCx : String

/-- The `\x7btitle, link, snippet\x7d` projection applied to each Google CSE
item (agent.js line 453). -/
def cseItem (i : JVal) : JVal :=
  .obj [("title", getField i "title"),
        ("link", getField i "link"),
        ("snippet", getField i "snippet")]

/-- Whether the pattern occurs at the head of the character list. -/
def startsWith : List Char → List Char → Bool
  | _, [] => true
  | [], _ :: _ => false
  | c :: cs, d :: ds => c = d && startsWith cs ds

/-- Characters before the first occurrence of the separator (the whole
list when the separator does not occur). -/
def upToSep (sep : List Char) : List Char → List Char
  | [] => []
  | c :: cs => if startsWith (c :: cs) sep then [] else c :: upToSep sep cs

/-- Model of `s.split(sep)[0]`: the text before the first occurrence of `sep`. -/
def jsSplitHead (s sep : String) : String :=
  String.mk (upToSep sep.data s.data)

/-- One DuckDuckGo related topic turned into an item (agent.js line 469):
`title` is the text before the first `" - "` or the query, `link` is
`FirstURL || ""`. -/
def ddgTopicItem (q : JVal) (text : String) (rt : JVal) : JVal :=
  .obj [("title", jsOr (.str (jsSplitHead text " - ")) q),
        ("link", jsOr (getField rt "FirstURL") (.str "")),
        ("snippet", .str text)]

/-- Fold the sliced related topics into items; a truthy non-string `Text`
makes `rt?.Text.split` throw inside the DDG `try`, which the caller maps
to a null DDG contribution. -/
def ddgTopics (q : JVal) : List JVal → Except String (List JVal)
  | [] => .ok []
  | rt :: rts =>
      match getField rt "Text" with
      | .str s =>
          if s = "" then ddgTopics q rts
          else
            match ddgTopics q rts with
            | .ok items => .ok (ddgTopicItem q s rt :: items)
            | .error e => .error e
      | v =>
          if truthy v then .error "TypeError: rt.Text.split is not a function"
          else ddgTopics q rts

/-- Model of `data.Results?.[0]?.FirstURL`: first element of the `Results` array,
then its `FirstURL`. -/
def resultsFirstURL (data : JVal) : JVal :=
  match getField data "Results" with
  | .arr (r :: _) => getField r "FirstURL"
  | _ => .undefined

/-- The abstract item DDG contributes when `AbstractText` is truthy
(agent.js lines 464-466). -/
def ddgAbstractItem (q : JVal) (data : JVal) : JVal :=
  .obj [("title", jsOr (getField data "Heading") q),
        ("link", jsOr (getField data "AbstractURL")
          (jsOr (resultsFirstURL data) (.str ""))),
        ("snippet", getField data "AbstractText")]

/-- The items the DuckDuckGo reply contributes (agent.js lines 463-471):
the abstract item when `AbstractText` is truthy, then the related topics
sliced to `Math.max(0, num - items.length)`. -/
def ddgItemsOf (q : JVal) (num : Int) (data : JVal) : Except String (List JVal) :=
  let base := if truthy (getField data "AbstractText") then [ddgAbstractItem q data] else []
  match getField data "RelatedTopics" with
  | .arr rts =>
      match ddgTopics q (rts.take (num - base.length).toNat) with
      | .ok more => .ok (base ++ more)
      | .error e => .error e
  | _ => .ok base

/-- The whole DuckDuckGo attempt (agent.js lines 458-474): every failure
inside the `try` — rejected fetch, non-ok status, bad JSON, a thrown
`split` — leaves `ddg` null, as does an empty item list. -/
def ddgItems (env : ToolEnv) (q : JVal) (num : Int) : Option (List JVal) :=
  match env.fetch (.ddg q) with
  | .error _ => none
  | .ok r =>
      if r.ok then
        match r.jsonResult with
        | .error _ => none
        | .ok data =>
            match ddgItemsOf q num data with
            | .error _ => none
            | .ok items => if items.isEmpty then none else some items
      else none

/-- Collapse every run of whitespace into one `_`, as
`q.trim().replace(/\s+/g, "_")` does after the trim; the flag records
whether the current position continues a whitespace run. -/
def collapseWS : Bool → List Char → List Char
  | _, [] => []
  | inRun, c :: cs =>
      if jsWS c then
        if inRun then collapseWS true cs else '_' :: collapseWS true cs
      else c :: collapseWS false cs

/-- The Wikipedia title guess `q.trim().replace(/\s+/g, "_")`. -/
def titleGuess (s : String) : String :=
  String.mk (collapseWS false (jsTrim s).data)

/-- The single Wikipedia item (agent.js line 484). -/
def wikiItem (q : JVal) (w : JVal) : JVal :=
  .obj [("title", jsOr (getField w "title") q),
        ("link", jsOr (getField (getField (getField w "content_urls") "desktop") "page")
          (jsOr (getField (getField (getField w "content_urls") "mobile") "page") (.str ""))),
        ("snippet", getField w "extract")]

/-- The whole Wikipedia attempt (agent.js lines 477-487): a non-string
query makes `q.trim()` throw inside the `try`; any other failure is also
swallowed, leaving `wiki` null. -/
def wikiItems (env : ToolEnv) (q : JVal) : Option (List JVal) :=
  match q with
  | .str s =>
      match env.fetch (.wikiSummary (titleGuess s)) with
      | .error _ => none
      | .ok r =>
          if r.ok then
            match r.jsonResult with
            | .error _ => none
            | .ok w => if truthy (getField w "extract") then some [wikiItem q w] else none
          else none
  | _ => none

/-- The `num` argument from the tool arguments with the destructuring default 3
(non-numeric `num` values are folded to the default in this embedding). -/
def argNum (args : JVal) : Int :=
  match getField args "num" with
  | .num n => n
  | _ => 3

/-- Model of `toolWebSearch` (agent.js lines 445-493). With a Google key pair the
CSE reply is mapped item by item — a rejected fetch or a bad JSON body
propagates as a rejection, a non-2xx response is returned as an error
object. Without keys, the DDG and Wikipedia attempts are combined. -/
def toolWebSearch (env : ToolEnv) (s : Settings) (args : JVal) :
    Except String JVal :=
  let q := getField args "q"
  let num := argNum args
  if s.googleKey ≠ "" ∧ s.googleCx ≠ "" then
    match env.fetch (.googleCSE s.googleKey s.googleCx q num) with
    | .error e => .error e
    | .ok r =>
        if !r.ok then
          .ok (.obj [("error", .str ("Google CSE error: " ++ toString r.status
                  ++ " " ++ r.statusText)),
                ("detail", .str r.textBody)])
        else
          match r.jsonResult with
          | .error e => .error e
          | .ok j =>
              match getField j "items" with
              | .arr xs =>
                  .ok (.obj [("query", q), ("provider", .str "google_cse"),
                        ("items", .arr (xs.map cseItem))])
              | v =>
                  if truthy v then .error "TypeError: json.items.map is not a function"
                  else .ok (.obj [("query", q), ("provider", .str "google_cse"),
                        ("items", .arr [])])
  else
    match ddgItems env q num, wikiItems env q with
    | some ds, some ws =>
        .ok (.obj [("query", q), ("provider", .str "fallback(duckduckgo+wiki)"),
              ("items", .arr (ds.take (num - 1).toNat ++ ws.take 1))])
    | some ds, none =>
        .ok (.obj [("query", q), ("provider", .str "duckduckgo"),
              ("items", .arr ds)])
    | none, some ws =>
        .ok (.obj [("query", q), ("provider", .str "wikipedia"),
              ("items", .arr ws)])
    | none, none =>
        .ok (.obj [("query", q), ("provider", .str "fallback"),
              ("items", .arr []),
              ("warning", .str "No-key fallbacks returned no results (network/CORS?).")])

/-- Model of `data?.choices?.[0]?.message?.content` (agent.js line 513). -/
def firstChoiceContent (data : JVal) : JVal :=
  match getField data "choices" with
  | .arr (c :: _) => getField (getField c "message") "content"
  | _ => .undefined

/-- Model of `toolAIPipeProxy` (agent.js lines 495-515): credential resolution
with the dynamic-profile fallback, then the OpenRouter-style chat call.
A missing credential is a returned error object; a rejected fetch or a
bad JSON body propagates. -/
def toolAIPipeProxy (env : ToolEnv) (s : Settings) (args : JVal) :
    Except String JVal :=
  let prompt := getField args "prompt"
  let model := match getField args "model" with
    | .undefined => JVal.str "openai/gpt-4o-mini"
    | v => v
  let maxTok := match getField args "max_tokens" with
    | .undefined => (200 : Int)
    | .num n => n
    | _ => 200
  let key : Option String :=
    if s.apiKey ≠ "" then some s.apiKey
    else if s.provider = "aipipe" then env.profileToken
    else none
  match key with
  | none => .ok (.obj [("error",
      .str "AI Pipe token required (use Provider: AI Pipe or log in via AI Pipe).")])
  | some k =>
      match env.fetch (.aipipeChat k model prompt maxTok) with
      | .error e => .error e
      | .ok r =>
          if !r.ok then
            .ok (.obj [("error", .str ("AI Pipe error: " ++ toString r.status
                    ++ " " ++ r.statusText)),
                  ("detail", .str r.textBody)])
          else
            match r.jsonResult with
            | .error e => .error e
            | .ok data =>
                .ok (.obj [("text", jsOr (firstChoiceContent data) (.str ""))])

/-- Model of `toolJsExec` (agent.js lines 518-556): the worker round trip resolves
with logs plus either a result or an error; the promise never rejects for
string code. A truthy non-string `code` makes `.replace` throw inside the
promise executor, which surfaces as a rejection. The `</script>`
neutralization rewrite is folded into the sandbox behaviour. -/
def toolJsExec (env : ToolEnv) (args : JVal) : Except String JVal :=
  match jsOr (getField args "code") (.str "") with
  | .str code =>
      let out := env.sandbox code
      if out.failed then
        .ok (.obj [("logs", .arr (out.logs.map JVal.str)), ("error", .str out.errText)])
      else
        .ok (.obj [("logs", .arr (out.logs.map JVal.str)), ("result", out.result)])
  | _ => .error "TypeError: code.replace is not a function"

/-- Model of `executeTool(name, args)` (agent.js lines 435-442): dispatch by tool
name; an unknown name is an error object, not a rejection. -/
def executeTool (env : ToolEnv) (s : Settings) (name args : JVal) :
    Except String JVal :=
  if isStr name "web_search" then toolWebSearch env s args
  else if isStr name "aipipe_proxy" then toolAIPipeProxy env s args
  else if isStr name "js_exec" then toolJsExec env args
  else .ok (.obj [("error", .str ("Unknown tool: " ++ jsToString name))])

/-- The loop's call site `executeTool(...).catch(e => (\x7b error: String(e) \x7d))`
(agent.js line 260): a rejection becomes an error-object value. -/
def execCaught (env : ToolEnv) (s : Settings) (name args : JVal) : JVal :=
  match executeTool env s name args with
  | .ok v => v
  | .error e => .obj [("error", .str e)]

/-! ## Provider adapters for the transcript (agent.js lines 347-359, 396-408) -/

/-- The best-effort parse of a tool message's content shared by the Gemini
and Anthropic adapters: `JSON.parse(m.content)` with the
`\x7b text: String(m.content) \x7d` fallback on a parse failure (`JSON.parse`
coerces its argument to a string first). -/
def parsedToolContent (c : JVal) : JVal :=
  match jsonParse (jsToString c) with
  | .ok v => v
  | .error _ => .obj [("text", .str (jsToString c))]

/-- Model of `toGeminiContents` (agent.js lines 347-359): falsy messages and falsy
roles are skipped; user and assistant messages become text parts (with
`assistant` renamed `model`), tool messages become function responses, and
every other role — including `system` — is silently dropped. -/
def toGeminiContents : List JVal → List JVal
  | [] => []
  | m :: ms =>
      let role := getField m "role"
      if !truthy m || !truthy role then toGeminiContents ms
      else if isStr role "user" || isStr role "assistant" then
        JVal.obj [("role", .str (if isStr role "assistant" then "model" else "user")),
          ("parts", .arr [.obj [("text",
            .str (jsToString (jsOr (getField m "content") (.str ""))))]])]
          :: toGeminiContents ms
      else if isStr role "tool" then
        JVal.obj [("role", .str "tool"),
          ("parts", .arr [.obj [("functionResponse", .obj
            [("name", jsOr (getField m "name") (.str "tool")),
             ("response", parsedToolContent (getField m "content"))])]])]
          :: toGeminiContents ms
      else toGeminiContents ms

/-- Model of `toAnthropicMessages` (agent.js lines 396-408), with the
`Math.random()` id generation modelled as a supply `gen` indexed by how
many synthetic ids have been drawn so far. User and assistant messages
become text blocks, tool messages become user-role `tool_result` blocks,
and every other role — including `system` — is silently dropped. -/
def toAnthropicMessagesAux (gen : Nat → String) : Nat → List JVal → List JVal
  | _, [] => []
  | k, m :: ms =>
      let role := getField m "role"
      if !truthy m || !truthy role then toAnthropicMessagesAux gen k ms
      else if isStr role "user" || isStr role "assistant" then
        JVal.obj [("role", role),
          ("content", .arr [.obj [("type", .str "text"),
            ("text", .str (jsToString (jsOr (getField m "content") (.str ""))))]])]
          :: toAnthropicMessagesAux gen k ms
      else if isStr role "tool" then
        let id := getField m "tool_call_id"
        JVal.obj [("role", .str "user"),
          ("content", .arr [.obj [("type", .str "tool_result"),
            ("tool_use_id", if truthy id then id else .str ("tool_" ++ gen k)),
            ("content", .str (jsonStringify (parsedToolContent (getField m "content")))),
            ("is_error", .bool false)]])]
          :: toAnthropicMessagesAux gen (if truthy id then k else k + 1) ms
      else toAnthropicMessagesAux gen k ms

/-- Model of `toAnthropicMessages` starting with no synthetic ids drawn. -/
def toAnthropicMessages (gen : Nat → String) (ms : List JVal) : List JVal :=
  toAnthropicMessagesAux gen 0 ms

/-- The roles that contribute an entry in both adapters. -/
def adapterKeeps (m : JVal) : Bool :=
  isStr (getField m "role") "user" || isStr (getField m "role") "assistant"
    || isStr (getField m "role") "tool"

/-! ## Heap-level sanitizer (for the no-mutation contract) -/

/-- A store of JS objects; each transcript message occupies one cell. -/
abbrev Store := List JVal

/-- Read a cell (JS yields `undefined` past the end). -/
def storeGet (st : Store) (a : Nat) : JVal := st.getD a .undefined

/-- Write `out.k = v` at address `a`: append the field to the object held there
(every sanitizer write targets a key not yet present on `out`). -/
def storeSetField (st : Store) (a : Nat) (k : String) (v : JVal) : Store :=
  st.set a (match storeGet st a with
    | .obj fs => .obj (fs ++ [(k, v)])
    | w => w)

/-- The sanitizer's per-message body with the allocation and every
assignment to `out` made explicit: `const out = \x7b role: m.role \x7d`
allocates a fresh cell, and each subsequent write lands on that cell.
Returns the store and the address of `out`. -/
def sanitizeMsgHeap (st : Store) (m : JVal) : Store × Nat :=
  let a := List.length st
  let st1 : Store := st ++ [JVal.obj [("role", getField m "role")]]
  let role := getField m "role"
  if isStr role "assistant" then
    let tc := wellFormedTCs m
    if tc.isEmpty then
      (storeSetField st1 a "content" (.str (contentString m)), a)
    else
      let st2 := storeSetField st1 a "tool_calls" (.arr (tc.map sanTC))
      let c := trimmedContent m
      (storeSetField st2 a "content" (if c = "" then .null else .str c), a)
  else if isStr role "tool" then
    let st2 := storeSetField st1 a "tool_call_id" (getField m "tool_call_id")
    let st3 := if truthy (getField m "name")
      then storeSetField st2 a "name" (getField m "name") else st2
    (storeSetField st3 a "content" (.str (contentString m)), a)
  else
    let st2 := storeSetField st1 a "content" (.str (contentString m))
    (if truthy (getField m "name")
      then storeSetField st2 a "name" (getField m "name") else st2, a)

/-- The heap-level `sanitizeMessagesForOpenAI`: map over the message
addresses, reading each message from the store and allocating its
sanitized copy. Returns the final store and the output addresses. -/
def sanitizeHeap (st : Store) : List Nat → Store × List Nat
  | [] => (st, [])
  | a :: rest =>
      let r := sanitizeMsgHeap st (storeGet st a)
      let r2 := sanitizeHeap r.1 rest
      (r2.1, r.2 :: r2.2)

/-! ## Theorems -/

/-- The filtered tool calls of a provider reply as the loop extracts them. -/
def respToolCalls (resp : JVal) : List JVal :=
  wellFormedTCs (getAssistantMessage resp)

/-- A provider stub that always yields a reply with zero tool calls. -/
def alwaysNoTools (llm : LLMBehaviour) : Prop :=
  ∀ ms, ∃ resp, llm ms = .ok resp ∧ respToolCalls resp = []

/-- A provider stub that always yields a reply with exactly one tool call. -/
def alwaysOneTool (llm : LLMBehaviour) : Prop :=
  ∀ ms, ∃ resp, llm ms = .ok resp ∧ (respToolCalls resp).length = 1

theorem agentSteps_iters_le (llm : LLMBehaviour) (exec : ToolExec) :
    ∀ (fuel : Nat) (msgs : List JVal),
      (agentSteps llm exec fuel msgs).iters ≤ fuel := by
  intro fuel
  induction fuel with
  | zero => intro msgs; simp [agentSteps]
  | succ f ih =>
      intro msgs
      unfold agentSteps
      cases hr : llm msgs with
      | failed e => simp
      | silent => simp
      | ok resp =>
          by_cases he : (wellFormedTCs (getAssistantMessage resp)).isEmpty
          · simp [he]
          · simp only [he, Bool.false_eq_true, if_false]
            exact Nat.succ_le_succ (ih _)

theorem agentSteps_one_tool (llm : LLMBehaviour) (exec : ToolExec)
    (h : alwaysOneTool llm) :
    ∀ (fuel : Nat) (msgs : List JVal),
      (agentSteps llm exec fuel msgs).iters = fuel ∧
        (agentSteps llm exec fuel msgs).alerts = [] := by
  intro fuel
  induction fuel with
  | zero => intro msgs; simp [agentSteps]
  | succ f ih =>
      intro msgs
      obtain ⟨resp, hr, h1⟩ := h msgs
      have he : (wellFormedTCs (getAssistantMessage resp)).isEmpty = false := by
        rcases hn : wellFormedTCs (getAssistantMessage resp) with _ | ⟨x, xs⟩
        · rw [respToolCalls, hn] at h1; simp at h1
        · simp
      unfold agentSteps
      rw [hr]
      simp only [he, Bool.false_eq_true, if_false]
      exact ⟨by rw [(ih _).1], (ih _).2⟩

/-- C1: for every provider behaviour the loop body runs at most 8 times;
a stub that always replies with zero tool calls gives exactly one
iteration, and a stub that always replies with exactly one tool call gives
exactly 8 iterations and an empty alert list (no error is signalled). -/
theorem agentLoop_iteration_bounds (llm : LLMBehaviour) (exec : ToolExec)
    (msgs : List JVal) :
    (agentLoop llm exec ⟨msgs, false⟩).2.1 ≤ 8
    ∧ (alwaysNoTools llm → (agentLoop llm exec ⟨msgs, false⟩).2.1 = 1)
    ∧ (alwaysOneTool llm →
        (agentLoop llm exec ⟨msgs, false⟩).2.1 = 8
        ∧ (agentLoop llm exec ⟨msgs, false⟩).2.2 = []) := by
  refine ⟨?_, ?_, ?_⟩
  · simpa [agentLoop] using agentSteps_iters_le llm exec 8 msgs
  · intro h
    obtain ⟨resp, hr, h0⟩ := h msgs
    have he : (wellFormedTCs (getAssistantMessage resp)).isEmpty = true := by
      rw [respToolCalls] at h0; rw [h0]; rfl
    simp [agentLoop, agentSteps, hr, he]
  · intro h
    have := agentSteps_one_tool llm exec h 8 msgs
    simpa [agentLoop] using this

/-- A reply with no tool calls, used to instantiate the zero-tool stub. -/
def respNoTools : JVal :=
  .obj [("choices", .arr [.obj [("message",
    .obj [("role", .str "assistant"), ("content", .str "done")])]])]

/-- A reply with exactly one tool call, used to instantiate the one-tool stub. -/
def respOneTool : JVal :=
  .obj [("choices", .arr [.obj [("message",
    .obj [("role", .str "assistant"), ("content", .str ""),
      ("tool_calls", .arr [.obj [("id", .str "call_1"),
        ("type", .str "function"),
        ("function", .obj [("name", .str "js_exec"),
          ("arguments", .str "")])]])])]])]

/-- A trivial total tool executor. -/
def execTrivial : ToolExec := fun _ _ => .obj []

theorem agentLoop_iteration_bounds_witness :
    (agentLoop (fun _ => .ok respNoTools) execTrivial ⟨[], false⟩).2.1 = 1
    ∧ (agentLoop (fun _ => .ok respOneTool) execTrivial ⟨[], false⟩).2.1 = 8
    ∧ (agentLoop (fun _ => .ok respOneTool) execTrivial ⟨[], false⟩).2.2 = [] := by
  refine ⟨?_, ?_, ?_⟩
  · exact (agentLoop_iteration_bounds (fun _ => .ok respNoTools) execTrivial []).2.1
      (fun ms => ⟨respNoTools, rfl, rfl⟩)
  · exact ((agentLoop_iteration_bounds (fun _ => .ok respOneTool) execTrivial []).2.2
      (fun ms => ⟨respOneTool, rfl, rfl⟩)).1
  · exact ((agentLoop_iteration_bounds (fun _ => .ok respOneTool) execTrivial []).2.2
      (fun ms => ⟨respOneTool, rfl, rfl⟩)).2

/-- C8: invoking the loop while the session's running flag is set is a
no-op — the state comes back unchanged, no iteration runs, no alert is
raised. -/
theorem agentLoop_reentry_noop (llm : LLMBehaviour) (exec : ToolExec)
    (st : AgentState) (h : st.running = true) :
    agentLoop llm exec st = (st, 0, []) := by
  simp [agentLoop, h]

theorem agentLoop_reentry_noop_witness :
    agentLoop (fun _ => .ok respNoTools) execTrivial
        ⟨[JVal.obj [("role", .str "user"), ("content", .str "hi")]], true⟩
      = (⟨[JVal.obj [("role", .str "user"), ("content", .str "hi")]], true⟩, 0, []) :=
  agentLoop_reentry_noop _ _ _ rfl

/-- C7: argument parsing in the loop is never fatal — a string that fails
`JSON.parse` yields the initial empty object, and a string that parses
yields exactly the parsed value. -/
theorem parseArgs_json (s : String) :
    ((∃ e, jsonParse s = .error e) → parseArgs (.str s) = .obj [])
    ∧ (∀ v, jsonParse s = .ok v → parseArgs (.str s) = v) := by
  constructor
  · rintro ⟨e, h⟩; simp [parseArgs, h]
  · intro v h; simp [parseArgs, h]

theorem parseArgs_json_witness :
    parseArgs (.str "\x7b\"a\": 1, \"b\": [true, null]\x7d")
        = .obj [("a", .num 1), ("b", .arr [.bool true, .null])]
    ∧ parseArgs (.str "\x7b\"a\": ") = .obj [] :=
  ⟨(parseArgs_json _).2 _ (by rfl), (parseArgs_json _).1 ⟨"unexpected end of input", by rfl⟩⟩

theorem isStr_eq {v : JVal} {r : String} (h : isStr v r = true) : v = .str r := by
  cases v <;> simp_all [isStr]

theorem truthy_of_role {m : JVal} {r : String} (h : isStr (getField m "role") r = true) :
    truthy m = true := by
  cases m <;> simp_all [getField, isStr, truthy]

theorem gemini_cons_skip (m : JVal) (ms : List JVal) (hk : adapterKeeps m = false) :
    toGeminiContents (m :: ms) = toGeminiContents ms := by
  simp only [adapterKeeps, Bool.or_eq_false_iff] at hk
  obtain ⟨⟨h1, h2⟩, h3⟩ := hk
  by_cases hm : truthy m = true
  · by_cases hr : truthy (getField m "role") = true
    · simp [toGeminiContents, hm, hr, h1, h2, h3]
    · simp [toGeminiContents, Bool.eq_false_iff.mpr hr]
  · simp [toGeminiContents, Bool.eq_false_iff.mpr hm]

theorem anthropic_cons_skip (gen : Nat → String) (k : Nat) (m : JVal)
    (ms : List JVal) (hk : adapterKeeps m = false) :
    toAnthropicMessagesAux gen k (m :: ms) = toAnthropicMessagesAux gen k ms := by
  simp only [adapterKeeps, Bool.or_eq_false_iff] at hk
  obtain ⟨⟨h1, h2⟩, h3⟩ := hk
  by_cases hm : truthy m = true
  · by_cases hr : truthy (getField m "role") = true
    · simp [toAnthropicMessagesAux, hm, hr, h1, h2, h3]
    · simp [toAnthropicMessagesAux, Bool.eq_false_iff.mpr hr]
  · simp [toAnthropicMessagesAux, Bool.eq_false_iff.mpr hm]

theorem toGemini_filter (ms : List JVal) :
    toGeminiContents ms = toGeminiContents (ms.filter adapterKeeps) := by
  induction ms with
  | nil => rfl
  | cons m ms ih =>
      by_cases hk : adapterKeeps m = true
      · rw [List.filter_cons_of_pos hk]
        have hm : truthy m = true := by
          simp only [adapterKeeps, Bool.or_eq_true] at hk
          rcases hk with (h | h) | h <;> exact truthy_of_role h
        have hr : truthy (getField m "role") = true := by
          simp only [adapterKeeps, Bool.or_eq_true] at hk
          rcases hk with (h | h) | h <;> rw [isStr_eq h] <;> simp [truthy]
        by_cases h1 : (isStr (getField m "role") "user"
            || isStr (getField m "role") "assistant") = true
        · rcases Bool.or_eq_true _ _ |>.mp h1 with h | h <;>
            simp [toGeminiContents, hm, hr, isStr_eq h, isStr, ih]
        · have h3 : isStr (getField m "role") "tool" = true := by
            simp only [adapterKeeps, Bool.or_eq_true] at hk
            rcases hk with (h | h) | h
            · exact absurd (by simp [h]) h1
            · exact absurd (by simp [h]) h1
            · exact h
          simp [toGeminiContents, hm, hr, isStr_eq h3, isStr, ih]
      · rw [List.filter_cons_of_neg (by simpa using hk),
          gemini_cons_skip m ms (by simpa using hk)]
        exact ih

theorem toAnthropicAux_filter (gen : Nat → String) (ms : List JVal) :
    ∀ k, toAnthropicMessagesAux gen k ms
      = toAnthropicMessagesAux gen k (ms.filter adapterKeeps) := by
  induction ms with
  | nil => intro k; rfl
  | cons m ms ih =>
      intro k
      by_cases hk : adapterKeeps m = true
      · rw [List.filter_cons_of_pos hk]
        have hm : truthy m = true := by
          simp only [adapterKeeps, Bool.or_eq_true] at hk
          rcases hk with (h | h) | h <;> exact truthy_of_role h
        have hr : truthy (getField m "role") = true := by
          simp only [adapterKeeps, Bool.or_eq_true] at hk
          rcases hk with (h | h) | h <;> rw [isStr_eq h] <;> simp [truthy]
        by_cases h1 : (isStr (getField m "role") "user"
            || isStr (getField m "role") "assistant") = true
        · rcases Bool.or_eq_true _ _ |>.mp h1 with h | h <;>
            simp [toAnthropicMessagesAux, hm, hr, isStr_eq h, isStr, ih]
        · have h3 : isStr (getField m "role") "tool" = true := by
            simp only [adapterKeeps, Bool.or_eq_true] at hk
            rcases hk with (h | h) | h
            · exact absurd (by simp [h]) h1
            · exact absurd (by simp [h]) h1
            · exact h
          simp [toAnthropicMessagesAux, hm, hr, isStr_eq h3, isStr, ih]
      · rw [List.filter_cons_of_neg (by simpa using hk),
          anthropic_cons_skip gen k m ms (by simpa using hk)]
        exact ih k

/-- C10: both the Gemini and the Anthropic transcript adapters serialize
only user, assistant and tool messages — system-role messages (and any
message with a missing or unrecognized role) contribute nothing, so the
output equals the output on the transcript with those messages filtered
away; in particular a lone system message serializes to an empty list. -/
theorem adapters_omit_system (gen : Nat → String) (ms : List JVal) :
    toGeminiContents ms = toGeminiContents (ms.filter adapterKeeps)
    ∧ toAnthropicMessages gen ms = toAnthropicMessages gen (ms.filter adapterKeeps)
    ∧ toGeminiContents [JVal.obj [("role", .str "system"), ("content", .str "be brief")]] = []
    ∧ toAnthropicMessages gen
        [JVal.obj [("role", .str "system"), ("content", .str "be brief")]] = [] :=
  ⟨toGemini_filter ms, toAnthropicAux_filter gen ms 0, rfl, rfl⟩

/-- The items list of a tool result value. -/
def resultItems (r : Except String JVal) : List JVal :=
  match r with
  | .ok v =>
      match getField v "items" with
      | .arr xs => xs
      | _ => []
  | .error _ => []

/-- A Google-style stub engine whose response body reports 5 items. -/
def cseStubItems : List JVal :=
  [.obj [("title", .str "t1"), ("link", .str "l1"), ("snippet", .str "s1")],
   .obj [("title", .str "t2"), ("link", .str "l2"), ("snippet", .str "s2")],
   .obj [("title", .str "t3"), ("link", .str "l3"), ("snippet", .str "s3")],
   .obj [("title", .str "t4"), ("link", .str "l4"), ("snippet", .str "s4")],
   .obj [("title", .str "t5"), ("link", .str "l5"), ("snippet", .str "s5")]]

/-- A sandbox behaviour that logs nothing and returns `null`. -/
def sandboxTrivial : SandboxBehaviour := fun _ => ⟨[], false, .null, ""⟩

/-- Environment whose search engine always answers 200 with the 5-item body. -/
def cseStubEnv : ToolEnv :=
  ⟨fun _ => .ok ⟨true, 200, "OK", .ok (.obj [("items", .arr cseStubItems)]), ""⟩,
   sandboxTrivial, none⟩

/-- Settings with a configured search-engine key pair. -/
def cseSettings : Settings := ⟨"openai", "", "gk", "gcx"⟩

/-- The arguments `web_search("x", 3)`. -/
def webSearchArgs3 : JVal := .obj [("q", .str "x"), ("num", .num 3)]

/-- Counterexample to C5 as stated: against a stub engine whose body
reports 5 items, `web_search("x", 3)` yields all 5 items, not at most 3 —
the `num` parameter is only forwarded in the request, never enforced
locally. -/
theorem webSearch_count_counterexample :
    resultItems (toolWebSearch cseStubEnv cseSettings webSearchArgs3) = cseStubItems
    ∧ cseStubItems.length = 5 := by
  constructor
  · rfl
  · rfl

/-- C5 (amended): with a key pair configured and an engine reply that
parses with an `items` array, `web_search` returns exactly the engine's
reported items in their original order, each projected to
`title`/`link`/`snippet`; the requested count is only forwarded to the
engine in the request, not enforced locally. -/
theorem webSearch_keyed_passthrough (env : ToolEnv) (s : Settings) (args : JVal)
    (hkey : s.googleKey ≠ "") (hcx : s.googleCx ≠ "") (r : FetchResp)
    (hf : env.fetch (.googleCSE s.googleKey s.googleCx (getField args "q") (argNum args))
      = .ok r)
    (hok : r.ok = true) (j : JVal) (hj : r.jsonResult = .ok j)
    (xs : List JVal) (hx : getField j "items" = .arr xs) :
    toolWebSearch env s args = .ok (.obj
      [("query", getField args "q"), ("provider", .str "google_cse"),
       ("items", .arr (xs.map cseItem))]) := by
  simp [toolWebSearch, hkey, hcx, hf, hok, hj, hx]

theorem webSearch_keyed_passthrough_witness :
    toolWebSearch cseStubEnv cseSettings webSearchArgs3 = .ok (.obj
      [("query", .str "x"), ("provider", .str "google_cse"),
       ("items", .arr (cseStubItems.map cseItem))]) :=
  webSearch_keyed_passthrough cseStubEnv cseSettings webSearchArgs3
    (by simp [cseSettings]) (by simp [cseSettings]) _ rfl rfl _ rfl _ rfl

/-- C6: in the no-key fallback path, when both sources contribute the
result is the first source's items trimmed to `num - 1` plus the top item
of the second, tagged as the combined fallback; when exactly one
contributes its items are returned unmodified under its own tag; when
neither contributes the result is an empty item list with a warning — and
in every case a plain value, never a rejection. -/
theorem webSearch_fallback_cases (env : ToolEnv) (s : Settings) (args : JVal)
    (hnk : ¬(s.googleKey ≠ "" ∧ s.googleCx ≠ "")) :
    (∀ ds ws, ddgItems env (getField args "q") (argNum args) = some ds →
      wikiItems env (getField args "q") = some ws →
      toolWebSearch env s args = .ok (.obj
        [("query", getField args "q"),
         ("provider", .str "fallback(duckduckgo+wiki)"),
         ("items", .arr (ds.take (argNum args - 1).toNat ++ ws.take 1))]))
    ∧ (∀ ds, ddgItems env (getField args "q") (argNum args) = some ds →
      wikiItems env (getField args "q") = none →
      toolWebSearch env s args = .ok (.obj
        [("query", getField args "q"), ("provider", .str "duckduckgo"),
         ("items", .arr ds)]))
    ∧ (∀ ws, ddgItems env (getField args "q") (argNum args) = none →
      wikiItems env (getField args "q") = some ws →
      toolWebSearch env s args = .ok (.obj
        [("query", getField args "q"), ("provider", .str "wikipedia"),
         ("items", .arr ws)]))
    ∧ (ddgItems env (getField args "q") (argNum args) = none →
      wikiItems env (getField args "q") = none →
      toolWebSearch env s args = .ok (.obj
        [("query", getField args "q"), ("provider", .str "fallback"),
         ("items", .arr []),
         ("warning", .str "No-key fallbacks returned no results (network/CORS?).")])) := by
  refine ⟨?_, ?_, ?_, ?_⟩
  · intro ds ws hd hw; simp [toolWebSearch, hnk, hd, hw]
  · intro ds hd hw; simp [toolWebSearch, hnk, hd, hw]
  · intro ws hd hw; simp [toolWebSearch, hnk, hd, hw]
  · intro hd hw; simp [toolWebSearch, hnk, hd, hw]

/-- The DuckDuckGo stub body: an abstract plus one related topic, so the
general-knowledge source contributes exactly 2 items. -/
def fbDdgData : JVal :=
  .obj [("AbstractText", .str "alpha summary"), ("Heading", .str "Alpha"),
        ("AbstractURL", .str "https://a.example"),
        ("RelatedTopics", .arr [.obj [("Text", .str "Beta - more"),
          ("FirstURL", .str "https://b.example")]])]

/-- The Wikipedia stub body: one extract, so the encyclopedia source
contributes exactly 1 item. -/
def fbWikiData : JVal :=
  .obj [("extract", .str "gamma text"), ("title", .str "Gamma"),
        ("content_urls", .obj [("desktop",
          .obj [("page", .str "https://w.example")])])]

/-- No-key environment wired to the two fallback stubs. -/
def fbEnv : ToolEnv :=
  ⟨fun req =>
    match req with
    | .ddg _ => .ok ⟨true, 200, "OK", .ok fbDdgData, ""⟩
    | .wikiSummary _ => .ok ⟨true, 200, "OK", .ok fbWikiData, ""⟩
    | _ => .error "unused",
   sandboxTrivial, none⟩

/-- Settings with no search-engine key pair. -/
def fbSettings : Settings := ⟨"openai", "", "", ""⟩

/-- The 2 items the DuckDuckGo stub contributes. -/
def fbDdgItems : List JVal :=
  [.obj [("title", .str "Alpha"), ("link", .str "https://a.example"),
     ("snippet", .str "alpha summary")],
   .obj [("title", .str "Beta"), ("link", .str "https://b.example"),
     ("snippet", .str "Beta - more")]]

/-- The 1 item the Wikipedia stub contributes. -/
def fbWikiItems : List JVal :=
  [.obj [("title", .str "Gamma"), ("link", .str "https://w.example"),
     ("snippet", .str "gamma text")]]

theorem webSearch_fallback_cases_witness :
    toolWebSearch fbEnv fbSettings webSearchArgs3 = .ok (.obj
      [("query", .str "x"), ("provider", .str "fallback(duckduckgo+wiki)"),
       ("items", .arr (fbDdgItems ++ fbWikiItems))]) :=
  (webSearch_fallback_cases fbEnv fbSettings webSearchArgs3 (by simp [fbSettings])).1
    fbDdgItems fbWikiItems (by rfl) (by rfl)

/-- Environment whose every network call rejects (e.g. a network outage). -/
def rejectingEnv : ToolEnv :=
  ⟨fun _ => .error "NetworkError: fetch failed", sandboxTrivial, none⟩

/-- Counterexample to C4 as stated: with a key pair configured and the
engine's fetch rejecting, the failure is NOT captured inside the tool —
`executeTool` itself rejects, and only the loop's `.catch` at the call
site turns it into a value. -/
theorem executeTool_rejects_counterexample :
    executeTool rejectingEnv cseSettings (.str "web_search") webSearchArgs3
      = .error "NetworkError: fetch failed" := by
  rfl

/-- C4 (amended): whatever a tool's underlying operations do — including
rejections that escape `executeTool` itself — the `.catch` at the loop's
call site converts the outcome into a value, every rejection surfacing as
an `error`-message object; the content pushed into the transcript is
always the `JSON.stringify` of that value. Non-2xx HTTP from the
configured search engine is captured inside the tool as an error object
and never rejects. -/
theorem executeTool_boundary (env : ToolEnv) (s : Settings) (name args : JVal) :
    (∀ e, executeTool env s name args = .error e →
      execCaught env s name args = .obj [("error", .str e)])
    ∧ (∀ v, executeTool env s name args = .ok v → execCaught env s name args = v)
    ∧ (∀ tc : JVal, getField (toolMsg (execCaught env s) tc) "content"
        = .str (jsonStringify (execCaught env s
            (getField (getField tc "function") "name")
            (parseArgs (getField (getField tc "function") "arguments")))))
    ∧ (s.googleKey ≠ "" → s.googleCx ≠ "" → ∀ r : FetchResp,
        env.fetch (.googleCSE s.googleKey s.googleCx (getField args "q") (argNum args))
          = .ok r → r.ok = false →
        executeTool env s (.str "web_search") args = .ok (.obj
          [("error", .str ("Google CSE error: " ++ toString r.status
              ++ " " ++ r.statusText)),
           ("detail", .str r.textBody)])) := by
  refine ⟨?_, ?_, ?_, ?_⟩
  · intro e h; simp [execCaught, h]
  · intro v h; simp [execCaught, h]
  · intro tc; simp [toolMsg, getField, getFieldL]
  · intro hk hc r hf hok
    simp [executeTool, isStr, toolWebSearch, hk, hc, hf, hok]

/-- Environment whose search engine answers 403 Forbidden. -/
def forbiddenEnv : ToolEnv :=
  ⟨fun _ => .ok ⟨false, 403, "Forbidden", .error "not json", "quota exceeded"⟩,
   sandboxTrivial, none⟩

theorem executeTool_boundary_witness :
    execCaught rejectingEnv cseSettings (.str "web_search") webSearchArgs3
        = .obj [("error", .str "NetworkError: fetch failed")]
    ∧ getField (toolMsg (execCaught rejectingEnv cseSettings)
          (.obj [("id", .str "1"), ("function", .obj
            [("name", .str "web_search"), ("arguments", .str "not json")])])) "content"
        = .str (jsonStringify (execCaught rejectingEnv cseSettings
            (.str "web_search") (.obj [])))
    ∧ executeTool forbiddenEnv cseSettings (.str "web_search") webSearchArgs3
        = .ok (.obj [("error", .str "Google CSE error: 403 Forbidden"),
            ("detail", .str "quota exceeded")]) := by
  refine ⟨?_, ?_, ?_⟩
  · exact (executeTool_boundary rejectingEnv cseSettings
      (.str "web_search") webSearchArgs3).1 _ rfl
  · exact (executeTool_boundary rejectingEnv cseSettings
      (.str "web_search") webSearchArgs3).2.2.1 _
  · exact (executeTool_boundary forbiddenEnv cseSettings
      (.str "web_search") webSearchArgs3).2.2.2 (by simp [cseSettings])
      (by simp [cseSettings]) _ rfl rfl

/-- C2: sanitizing an assistant message that carries at least one
well-formed (truthy) tool call yields a non-empty `tool_calls` array and a
content that is `null` exactly when the trimmed text is empty, otherwise
the trimmed text; with no well-formed tool calls the output carries no
`tool_calls` field at all. -/
theorem sanitize_assistant_tool_calls (m : JVal)
    (h : isStr (getField m "role") "assistant" = true) :
    (wellFormedTCs m ≠ [] →
      hasField (sanitizeMsg m) "tool_calls" = true
      ∧ (∃ xs, getField (sanitizeMsg m) "tool_calls" = .arr xs ∧ xs ≠ [])
      ∧ getField (sanitizeMsg m) "content"
          = (if trimmedContent m = "" then .null else .str (trimmedContent m)))
    ∧ (wellFormedTCs m = [] → hasField (sanitizeMsg m) "tool_calls" = false) := by
  constructor
  · intro hne
    have he : (wellFormedTCs m).isEmpty = false := by
      cases hw : wellFormedTCs m with
      | nil => exact absurd hw hne
      | cons a t => rfl
    have hs : sanitizeMsg m = .obj [("role", getField m "role"),
        ("tool_calls", .arr ((wellFormedTCs m).map sanTC)),
        ("content", if trimmedContent m = "" then .null
          else .str (trimmedContent m))] := by
      simp only [sanitizeMsg, h, he]
      simp
    refine ⟨?_, ⟨(wellFormedTCs m).map sanTC, ?_, ?_⟩, ?_⟩
    · rw [hs]; simp [hasField]
    · rw [hs]; simp [getField, getFieldL]
    · simpa using hne
    · rw [hs]; simp [getField, getFieldL]
  · intro hz
    have he : (wellFormedTCs m).isEmpty = true := by rw [hz]; rfl
    have hs : sanitizeMsg m = .obj [("role", getField m "role"),
        ("content", .str (contentString m))] := by
      simp only [sanitizeMsg, h, he]
      simp
    rw [hs]; simp [hasField]

/-- A concrete assistant message with one tool call and padded text. -/
def asstToolMsg : JVal :=
  .obj [("role", .str "assistant"), ("content", .str "  hi  "),
    ("tool_calls", .arr [.obj [("id", .str "1"), ("function",
      .obj [("name", .str "js_exec"), ("arguments", .str "\x7b\x7d")])]])]

theorem sanitize_assistant_tool_calls_witness :
    hasField (sanitizeMsg asstToolMsg) "tool_calls" = true
    ∧ getField (sanitizeMsg asstToolMsg) "content" = .str "hi" :=
  ⟨((sanitize_assistant_tool_calls asstToolMsg rfl).1 (List.cons_ne_nil _ _)).1,
   ((sanitize_assistant_tool_calls asstToolMsg rfl).1 (List.cons_ne_nil _ _)).2.2⟩


theorem getField_nil (k : String) : getField (.obj []) k = .undefined := rfl

theorem getField_cons_self (k : String) (v : JVal) (fs : List (String × JVal)) :
    getField (.obj ((k, v) :: fs)) k = v := by
  simp [getField, getFieldL]

theorem getField_cons_of_ne (k' k : String) (v : JVal) (fs : List (String × JVal))
    (h : ¬ k' = k) : getField (.obj ((k', v) :: fs)) k = getField (.obj fs) k := by
  simp [getField, getFieldL, h]

theorem sanArgs_str (a : JVal) : ∃ s, sanArgs a = .str s := by
  cases a <;> exact ⟨_, rfl⟩

theorem sanTC_idem (t : JVal) : sanTC (sanTC t) = sanTC t := by
  obtain ⟨s, hs⟩ := sanArgs_str (getField (getField t "function") "arguments")
  simp only [sanTC, hs]
  simp [getField_cons_self, getField_cons_of_ne, hs]
  rfl

theorem filter_truthy_map_sanTC (l : List JVal) :
    (l.map sanTC).filter truthy = l.map sanTC := by
  refine List.filter_eq_self.mpr ?_
  intro a ha
  obtain ⟨t, _, rfl⟩ := List.mem_map.mp ha
  rfl

theorem map_sanTC_idem (l : List JVal) :
    (l.map sanTC).map sanTC = l.map sanTC := by
  rw [List.map_map]
  exact List.map_congr_left (fun t _ => sanTC_idem t)

theorem jsTrim_trimmedContent (m : JVal) :
    jsTrim (trimmedContent m) = trimmedContent m := by
  simpa [trimmedContent]
    using jsTrim_idem (jsToString (nullish (getField m "content") (.str "")))

theorem sanitizeMsg_idem (m : JVal) : sanitizeMsg (sanitizeMsg m) = sanitizeMsg m := by
  by_cases ha : isStr (getField m "role") "assistant" = true
  · by_cases he : (wellFormedTCs m).isEmpty = true
    · have hs : sanitizeMsg m = .obj [("role", getField m "role"),
          ("content", .str (contentString m))] := by
        simp only [sanitizeMsg, ha, he]
        simp
      rw [hs]
      have h1 : getField (JVal.obj [("role", getField m "role"),
          ("content", .str (contentString m))]) "role" = getField m "role" :=
        getField_cons_self _ _ _
      have h2 : wellFormedTCs (JVal.obj [("role", getField m "role"),
          ("content", .str (contentString m))]) = [] := by
        simp [wellFormedTCs, getField_cons_of_ne, getField_nil]
      have h3 : contentString (JVal.obj [("role", getField m "role"),
          ("content", .str (contentString m))]) = contentString m := by
        simp [contentString, getField_cons_self, getField_cons_of_ne, nullish, asString]
      simp only [sanitizeMsg, h1, h2, ha, h3]
      simp
    · have hs : sanitizeMsg m = .obj [("role", getField m "role"),
          ("tool_calls", .arr ((wellFormedTCs m).map sanTC)),
          ("content", if trimmedContent m = "" then .null
            else .str (trimmedContent m))] := by
        simp only [sanitizeMsg, ha, he]
        simp
      rw [hs]
      have h1 : getField (JVal.obj [("role", getField m "role"),
          ("tool_calls", .arr ((wellFormedTCs m).map sanTC)),
          ("content", if trimmedContent m = "" then .null
            else .str (trimmedContent m))]) "role" = getField m "role" :=
        getField_cons_self _ _ _
      have h2 : wellFormedTCs (JVal.obj [("role", getField m "role"),
          ("tool_calls", .arr ((wellFormedTCs m).map sanTC)),
          ("content", if trimmedContent m = "" then .null
            else .str (trimmedContent m))]) = (wellFormedTCs m).map sanTC := by
        simp [wellFormedTCs, getField_cons_of_ne, getField_cons_self,
          filter_truthy_map_sanTC]
      have hne : ((wellFormedTCs m).map sanTC).isEmpty = false := by
        cases hw : wellFormedTCs m with
        | nil => rw [hw] at he; exact absurd rfl he
        | cons a t => rfl
      have h3 : trimmedContent (JVal.obj [("role", getField m "role"),
          ("tool_calls", .arr ((wellFormedTCs m).map sanTC)),
          ("content", if trimmedContent m = "" then .null
            else .str (trimmedContent m))]) = trimmedContent m := by
        have hget : getField (JVal.obj [("role", getField m "role"),
            ("tool_calls", .arr ((wellFormedTCs m).map sanTC)),
            ("content", if trimmedContent m = "" then .null
              else .str (trimmedContent m))]) "content"
            = (if trimmedContent m = "" then .null
              else .str (trimmedContent m)) := by
          simp [getField_cons_of_ne, getField_cons_self]
        rw [trimmedContent, hget]
        by_cases hc : trimmedContent m = ""
        · rw [if_pos hc, hc]
          rfl
        · rw [if_neg hc]
          calc jsTrim (jsToString (nullish (.str (trimmedContent m)) (.str "")))
              = jsTrim (trimmedContent m) := rfl
            _ = trimmedContent m := jsTrim_trimmedContent m
      simp only [sanitizeMsg, h1, h2, ha, hne, h3]
      simp only [Bool.false_eq_true, if_false, if_true]
      rw [map_sanTC_idem]
  · by_cases ht : isStr (getField m "role") "tool" = true
    · by_cases hn : truthy (getField m "name") = true
      · have hs : sanitizeMsg m = .obj [("role", getField m "role"),
            ("tool_call_id", getField m "tool_call_id"),
            ("name", getField m "name"),
            ("content", .str (contentString m))] := by
          simp only [sanitizeMsg, ha, ht, hn]
          simp
        rw [hs]
        have h1 : getField (JVal.obj [("role", getField m "role"),
            ("tool_call_id", getField m "tool_call_id"),
            ("name", getField m "name"),
            ("content", .str (contentString m))]) "role" = getField m "role" :=
          getField_cons_self _ _ _
        have h2 : getField (JVal.obj [("role", getField m "role"),
            ("tool_call_id", getField m "tool_call_id"),
            ("name", getField m "name"),
            ("content", .str (contentString m))]) "tool_call_id"
              = getField m "tool_call_id" := by
          simp [getField_cons_of_ne, getField_cons_self]
        have h4 : getField (JVal.obj [("role", getField m "role"),
            ("tool_call_id", getField m "tool_call_id"),
            ("name", getField m "name"),
            ("content", .str (contentString m))]) "name" = getField m "name" := by
          simp [getField_cons_of_ne, getField_cons_self]
        have h3 : contentString (JVal.obj [("role", getField m "role"),
            ("tool_call_id", getField m "tool_call_id"),
            ("name", getField m "name"),
            ("content", .str (contentString m))]) = contentString m := by
          simp [contentString, getField_cons_self, getField_cons_of_ne,
            nullish, asString]
        simp only [sanitizeMsg, h1, h2, h4, h3, ha, ht, hn]
        simp
      · have hs : sanitizeMsg m = .obj [("role", getField m "role"),
            ("tool_call_id", getField m "tool_call_id"),
            ("content", .str (contentString m))] := by
          simp only [sanitizeMsg, ha, ht, hn]
          simp
        rw [hs]
        have h1 : getField (JVal.obj [("role", getField m "role"),
            ("tool_call_id", getField m "tool_call_id"),
            ("content", .str (contentString m))]) "role" = getField m "role" :=
          getField_cons_self _ _ _
        have h2 : getField (JVal.obj [("role", getField m "role"),
            ("tool_call_id", getField m "tool_call_id"),
            ("content", .str (contentString m))]) "tool_call_id"
              = getField m "tool_call_id" := by
          simp [getField_cons_of_ne, getField_cons_self]
        have h4 : getField (JVal.obj [("role", getField m "role"),
            ("tool_call_id", getField m "tool_call_id"),
            ("content", .str (contentString m))]) "name" = JVal.undefined := by
          simp [getField_cons_of_ne, getField_nil]
        have h3 : contentString (JVal.obj [("role", getField m "role"),
            ("tool_call_id", getField m "tool_call_id"),
            ("content", .str (contentString m))]) = contentString m := by
          simp [contentString, getField_cons_self, getField_cons_of_ne,
            nullish, asString]
        simp only [sanitizeMsg, h1, h2, h4, h3, ha, ht]
        simp [truthy]
    · by_cases hn : truthy (getField m "name") = true
      · have hs : sanitizeMsg m = .obj [("role", getField m "role"),
            ("content", .str (contentString m)),
            ("name", getField m "name")] := by
          simp only [sanitizeMsg, ha, ht, hn]
          simp
        rw [hs]
        have h1 : getField (JVal.obj [("role", getField m "role"),
            ("content", .str (contentString m)),
            ("name", getField m "name")]) "role" = getField m "role" :=
          getField_cons_self _ _ _
        have h4 : getField (JVal.obj [("role", getField m "role"),
            ("content", .str (contentString m)),
            ("name", getField m "name")]) "name" = getField m "name" := by
          simp [getField_cons_of_ne, getField_cons_self]
        have h3 : contentString (JVal.obj [("role", getField m "role"),
            ("content", .str (contentString m)),
            ("name", getField m "name")]) = contentString m := by
          simp [contentString, getField_cons_self, getField_cons_of_ne,
            nullish, asString]
        simp only [sanitizeMsg, h1, h4, h3, ha, ht, hn]
        simp
      · have hs : sanitizeMsg m = .obj [("role", getField m "role"),
            ("content", .str (contentString m))] := by
          simp only [sanitizeMsg, ha, ht, hn]
          simp
        rw [hs]
        have h1 : getField (JVal.obj [("role", getField m "role"),
            ("content", .str (contentString m))]) "role" = getField m "role" :=
          getField_cons_self _ _ _
        have h4 : getField (JVal.obj [("role", getField m "role"),
            ("content", .str (contentString m))]) "name" = JVal.undefined := by
          simp [getField_cons_of_ne, getField_nil]
        have h3 : contentString (JVal.obj [("role", getField m "role"),
            ("content", .str (contentString m))]) = contentString m := by
          simp [contentString, getField_cons_self, getField_cons_of_ne,
            nullish, asString]
        simp only [sanitizeMsg, h1, h4, h3, ha, ht]
        simp [truthy]

/-- C3: sanitization is idempotent — sanitizing an already-sanitized
transcript yields a structurally identical transcript. -/
theorem sanitizeMessagesForOpenAI_idem (ms : List JVal) :
    sanitizeMessagesForOpenAI (sanitizeMessagesForOpenAI ms)
      = sanitizeMessagesForOpenAI ms := by
  induction ms with
  | nil => rfl
  | cons m t ih =>
      simp only [sanitizeMessagesForOpenAI, List.map_cons] at ih ⊢
      rw [sanitizeMsg_idem m, ih]

theorem storeGet_append_lt (st : Store) (x : JVal) (i : Nat) (h : i < st.length) :
    storeGet (st ++ [x]) i = storeGet st i := by
  simp only [storeGet, List.getD_eq_getElem?_getD]
  rw [List.getElem?_append]
  simp [h]

theorem storeGet_append_self (st : Store) (x : JVal) :
    storeGet (st ++ [x]) st.length = x := by
  simp [storeGet, List.getD_eq_getElem?_getD]

theorem storeSetField_length (st : Store) (a : Nat) (k : String) (v : JVal) :
    (storeSetField st a k v).length = st.length := by
  simp [storeSetField]

theorem storeGet_setField_ne (st : Store) (a : Nat) (k : String) (v : JVal)
    (i : Nat) (h : a ≠ i) : storeGet (storeSetField st a k v) i = storeGet st i := by
  simp only [storeSetField, storeGet, List.getD_eq_getElem?_getD]
  rw [List.getElem?_set_ne h]

theorem storeGet_setField_self (st : Store) (a : Nat) (k : String) (v : JVal)
    (fs : List (String × JVal)) (ha : a < st.length)
    (h : storeGet st a = .obj fs) :
    storeGet (storeSetField st a k v) a = .obj (fs ++ [(k, v)]) := by
  unfold storeSetField
  rw [h]
  simp only [storeGet, List.getD_eq_getElem?_getD]
  simp [List.getElem?_set_self, ha]


/-- The per-message heap run: the fresh cell is allocated at the old top,
the store grows by exactly one cell, every pre-existing cell is untouched,
and the fresh cell ends up holding exactly the pure `sanitizeMsg m`. -/
theorem sanitizeMsgHeap_spec (st : Store) (m : JVal) :
    (sanitizeMsgHeap st m).2 = st.length
    ∧ (sanitizeMsgHeap st m).1.length = st.length + 1
    ∧ (∀ i, i < st.length → storeGet (sanitizeMsgHeap st m).1 i = storeGet st i)
    ∧ storeGet (sanitizeMsgHeap st m).1 st.length = sanitizeMsg m := by
  have hb : storeGet (st ++ [JVal.obj [("role", getField m "role")]]) st.length
      = .obj [("role", getField m "role")] := storeGet_append_self st _
  have hl : (st ++ [JVal.obj [("role", getField m "role")]]).length
      = st.length + 1 := by simp
  by_cases ha : isStr (getField m "role") "assistant" = true
  · by_cases he : (wellFormedTCs m).isEmpty = true
    · have hrun : sanitizeMsgHeap st m
          = (storeSetField (st ++ [JVal.obj [("role", getField m "role")]])
              st.length "content" (.str (contentString m)), st.length) := by
        simp only [sanitizeMsgHeap, ha, he, if_true]
      rw [hrun]
      refine ⟨rfl, ?_, ?_, ?_⟩
      · rw [storeSetField_length, hl]
      · intro i hi
        rw [storeGet_setField_ne _ _ _ _ _ (Nat.ne_of_gt hi),
          storeGet_append_lt _ _ _ hi]
      · rw [storeGet_setField_self _ _ _ _ _ (by omega) hb]
        simp [sanitizeMsg, ha, he]
    · have he' : (wellFormedTCs m).isEmpty = false := by
        revert he; cases (wellFormedTCs m).isEmpty <;> simp
      have hrun : sanitizeMsgHeap st m
          = (storeSetField
              (storeSetField (st ++ [JVal.obj [("role", getField m "role")]])
                st.length "tool_calls" (.arr ((wellFormedTCs m).map sanTC)))
              st.length "content"
              (if trimmedContent m = "" then .null else .str (trimmedContent m)),
             st.length) := by
        simp only [sanitizeMsgHeap, ha, he', if_true, Bool.false_eq_true, if_false]
      rw [hrun]
      refine ⟨rfl, ?_, ?_, ?_⟩
      · rw [storeSetField_length, storeSetField_length, hl]
      · intro i hi
        rw [storeGet_setField_ne _ _ _ _ _ (Nat.ne_of_gt hi),
          storeGet_setField_ne _ _ _ _ _ (Nat.ne_of_gt hi),
          storeGet_append_lt _ _ _ hi]
      · rw [storeGet_setField_self _ _ _ _ _
            (by rw [storeSetField_length]; omega)
            (storeGet_setField_self _ _ _ _ _ (by omega) hb)]
        simp [sanitizeMsg, ha, he']
  · by_cases ht : isStr (getField m "role") "tool" = true
    · by_cases hn : truthy (getField m "name") = true
      · have hrun : sanitizeMsgHeap st m
            = (storeSetField
                (storeSetField
                  (storeSetField (st ++ [JVal.obj [("role", getField m "role")]])
                    st.length "tool_call_id" (getField m "tool_call_id"))
                  st.length "name" (getField m "name"))
                st.length "content" (.str (contentString m)),
               st.length) := by
          simp only [sanitizeMsgHeap, ha, ht, hn, Bool.false_eq_true, if_false,
            if_true]
        rw [hrun]
        refine ⟨rfl, ?_, ?_, ?_⟩
        · rw [storeSetField_length, storeSetField_length, storeSetField_length, hl]
        · intro i hi
          rw [storeGet_setField_ne _ _ _ _ _ (Nat.ne_of_gt hi),
            storeGet_setField_ne _ _ _ _ _ (Nat.ne_of_gt hi),
            storeGet_setField_ne _ _ _ _ _ (Nat.ne_of_gt hi),
            storeGet_append_lt _ _ _ hi]
        · rw [storeGet_setField_self _ _ _ _ _
              (by rw [storeSetField_length, storeSetField_length]; omega)
              (storeGet_setField_self _ _ _ _ _
                (by rw [storeSetField_length]; omega)
                (storeGet_setField_self _ _ _ _ _ (by omega) hb))]
          simp [sanitizeMsg, ha, ht, hn]
      · have hrun : sanitizeMsgHeap st m
            = (storeSetField
                (storeSetField (st ++ [JVal.obj [("role", getField m "role")]])
                  st.length "tool_call_id" (getField m "tool_call_id"))
                st.length "content" (.str (contentString m)),
               st.length) := by
          simp only [sanitizeMsgHeap, ha, ht, hn, Bool.false_eq_true, if_false,
            if_true]
        rw [hrun]
        refine ⟨rfl, ?_, ?_, ?_⟩
        · rw [storeSetField_length, storeSetField_length, hl]
        · intro i hi
          rw [storeGet_setField_ne _ _ _ _ _ (Nat.ne_of_gt hi),
            storeGet_setField_ne _ _ _ _ _ (Nat.ne_of_gt hi),
            storeGet_append_lt _ _ _ hi]
        · rw [storeGet_setField_self _ _ _ _ _
              (by rw [storeSetField_length]; omega)
              (storeGet_setField_self _ _ _ _ _ (by omega) hb)]
          simp [sanitizeMsg, ha, ht, hn]
    · by_cases hn : truthy (getField m "name") = true
      · have hrun : sanitizeMsgHeap st m
            = (storeSetField
                (storeSetField (st ++ [JVal.obj [("role", getField m "role")]])
                  st.length "content" (.str (contentString m)))
                st.length "name" (getField m "name"),
               st.length) := by
          simp only [sanitizeMsgHeap, ha, ht, hn, Bool.false_eq_true, if_false,
            if_true]
        rw [hrun]
        refine ⟨rfl, ?_, ?_, ?_⟩
        · rw [storeSetField_length, storeSetField_length, hl]
        · intro i hi
          rw [storeGet_setField_ne _ _ _ _ _ (Nat.ne_of_gt hi),
            storeGet_setField_ne _ _ _ _ _ (Nat.ne_of_gt hi),
            storeGet_append_lt _ _ _ hi]
        · rw [storeGet_setField_self _ _ _ _ _
              (by rw [storeSetField_length]; omega)
              (storeGet_setField_self _ _ _ _ _ (by omega) hb)]
          simp [sanitizeMsg, ha, ht, hn]
      · have hrun : sanitizeMsgHeap st m
            = (storeSetField (st ++ [JVal.obj [("role", getField m "role")]])
                st.length "content" (.str (contentString m)),
               st.length) := by
          simp only [sanitizeMsgHeap, ha, ht, hn, Bool.false_eq_true, if_false,
            if_true]
        rw [hrun]
        refine ⟨rfl, ?_, ?_, ?_⟩
        · rw [storeSetField_length, hl]
        · intro i hi
          rw [storeGet_setField_ne _ _ _ _ _ (Nat.ne_of_gt hi),
            storeGet_append_lt _ _ _ hi]
        · rw [storeGet_setField_self _ _ _ _ _ (by omega) hb]
          simp [sanitizeMsg, ha, ht, hn]

/-- C9: the heap-level sanitizer never mutates its input — after the run,
every pre-existing store cell (in particular every original message
object) holds exactly its old value, the store has only grown, and the
freshly allocated output cells hold exactly the pure `sanitizeMsg` of the
corresponding input messages (the result is a fresh copy). -/
theorem sanitizeHeap_no_mutation : ∀ (addrs : List Nat) (st : Store),
    (∀ a ∈ addrs, a < st.length) →
    (∀ i, i < st.length → storeGet (sanitizeHeap st addrs).1 i = storeGet st i)
    ∧ (sanitizeHeap st addrs).2.map (storeGet (sanitizeHeap st addrs).1)
        = addrs.map (fun a => sanitizeMsg (storeGet st a))
    ∧ st.length ≤ (sanitizeHeap st addrs).1.length := by
  intro addrs
  induction addrs with
  | nil => exact fun st hv => ⟨fun i hi => rfl, rfl, le_refl _⟩
  | cons a rest ih =>
      intro st hv
      obtain ⟨ho, hlen, hframe, hval⟩ := sanitizeMsgHeap_spec st (storeGet st a)
      have hrun : sanitizeHeap st (a :: rest)
          = ((sanitizeHeap (sanitizeMsgHeap st (storeGet st a)).1 rest).1,
             (sanitizeMsgHeap st (storeGet st a)).2
               :: (sanitizeHeap (sanitizeMsgHeap st (storeGet st a)).1 rest).2) := rfl
      have hv1 : ∀ b ∈ rest, b < (sanitizeMsgHeap st (storeGet st a)).1.length := by
        intro b hb
        rw [hlen]
        exact Nat.lt_succ_of_lt (hv b (List.mem_cons_of_mem _ hb))
      obtain ⟨ihf, ihm, ihl⟩ := ih (sanitizeMsgHeap st (storeGet st a)).1 hv1
      rw [hrun]
      refine ⟨?_, ?_, ?_⟩
      · intro i hi
        rw [ihf i (by rw [hlen]; omega), hframe i hi]
      · simp only [List.map_cons]
        rw [ho, ihf st.length (by rw [hlen]; omega), hval, ihm]
        congr 1
        refine List.map_congr_left ?_
        intro b hb
        rw [hframe b (hv b (List.mem_cons_of_mem _ hb))]
      · calc st.length ≤ (sanitizeMsgHeap st (storeGet st a)).1.length := by
              rw [hlen]; omega
          _ ≤ _ := ihl

/-- A two-message store (a user and an assistant message). -/
def storeW : Store :=
  [JVal.obj [("role", .str "user"), ("content", .str "hi")],
   JVal.obj [("role", .str "assistant"), ("content", .str "yo")]]

theorem sanitizeHeap_no_mutation_witness :
    (∀ i, i < 2 → storeGet (sanitizeHeap storeW [0, 1]).1 i = storeGet storeW i)
    ∧ (sanitizeHeap storeW [0, 1]).2.map (storeGet (sanitizeHeap storeW [0, 1]).1)
      = [sanitizeMsg (JVal.obj [("role", .str "user"), ("content", .str "hi")]),
         sanitizeMsg (JVal.obj [("role", .str "assistant"), ("content", .str "yo")])] :=
  ⟨(sanitizeHeap_no_mutation [0, 1] storeW (by simp [storeW])).1,
   (sanitizeHeap_no_mutation [0, 1] storeW (by simp [storeW])).2.1⟩
